import Mathlib

/-!
Verification development for the WebReal3D render-resource orchestration
engine.  The TypeScript sources are shallowly embedded: scalar floats
become exact rationals, GPU buffers become byte functions, GPU objects
become identity tokens allocated from a counter, and thrown exceptions
become explicit error results.  The `@web-real/math` collaborator package
(Vector3 / Matrix4) is not part of the analysed sources, so its operations
are modelled from the specification with the standard linear-algebra
meaning; everything else is translated directly from the repository code.
-/

namespace WebReal3D

/-- Modelled from the spec: 3-component vector of the missing
`@web-real/math` package, with exact rational components. -/
structure Vec3 where
  x : ℚ
  y : ℚ
  z : ℚ
deriving DecidableEq

/-- Modelled from the spec: componentwise vector addition. -/
def Vec3.add (a b : Vec3) : Vec3 := ⟨a.x + b.x, a.y + b.y, a.z + b.z⟩

/-- Modelled from the spec: componentwise vector subtraction. -/
def Vec3.sub (a b : Vec3) : Vec3 := ⟨a.x - b.x, a.y - b.y, a.z - b.z⟩

/-- Modelled from the spec: scalar multiple of a vector. -/
def Vec3.scale (a : Vec3) (s : ℚ) : Vec3 := ⟨a.x * s, a.y * s, a.z * s⟩

/-- Modelled from the spec: dot product. -/
def Vec3.dot (a b : Vec3) : ℚ := a.x * b.x + a.y * b.y + a.z * b.z

/-- Modelled from the spec: cross product. -/
def Vec3.cross (a b : Vec3) : Vec3 :=
  ⟨a.y * b.z - a.z * b.y, a.z * b.x - a.x * b.z, a.x * b.y - a.y * b.x⟩

/-- Bounded-search integer square root (floor), used to model the
square root of the missing math package exactly on perfect squares. -/
def isqrtGo (n : ℕ) : ℕ → ℕ
  | 0 => 0
  | k + 1 => if (k + 1) * (k + 1) ≤ n then k + 1 else isqrtGo n k

/-- Modelled from the spec: square root stand-in for `Math.sqrt`,
exact on the perfect squares exercised by the concrete test vectors. -/
def ratSqrt (q : ℚ) : ℚ := (isqrtGo q.num.toNat q.num.toNat : ℚ) / (isqrtGo q.den q.den : ℚ)

/-- Modelled from the spec: Euclidean length of a vector. -/
def Vec3.len (v : Vec3) : ℚ := ratSqrt (v.dot v)

/-- Modelled from the spec: vector scaled to unit length. -/
def Vec3.normalize (v : Vec3) : Vec3 :=
  let l := v.len
  ⟨v.x / l, v.y / l, v.z / l⟩

/-- Modelled from the spec: 4x4 matrix of the missing `@web-real/math`
package, entry `mIJ` sitting in row `I`, column `J` (column-vector
convention, so a transform acts as `M ⬝ (x, y, z, 1)ᵀ`). -/
@[ext] structure M4 where
  m00 : ℚ
  m01 : ℚ
  m02 : ℚ
  m03 : ℚ
  m10 : ℚ
  m11 : ℚ
  m12 : ℚ
  m13 : ℚ
  m20 : ℚ
  m21 : ℚ
  m22 : ℚ
  m23 : ℚ
  m30 : ℚ
  m31 : ℚ
  m32 : ℚ
  m33 : ℚ
deriving DecidableEq

/-- Modelled from the spec: the identity matrix (a fresh `Matrix4`). -/
def M4.id : M4 := ⟨1,0,0,0, 0,1,0,0, 0,0,1,0, 0,0,0,1⟩

/-- Modelled from the spec: standard matrix product. -/
def M4.mul (a b : M4) : M4 :=
  ⟨a.m00*b.m00 + a.m01*b.m10 + a.m02*b.m20 + a.m03*b.m30,
   a.m00*b.m01 + a.m01*b.m11 + a.m02*b.m21 + a.m03*b.m31,
   a.m00*b.m02 + a.m01*b.m12 + a.m02*b.m22 + a.m03*b.m32,
   a.m00*b.m03 + a.m01*b.m13 + a.m02*b.m23 + a.m03*b.m33,
   a.m10*b.m00 + a.m11*b.m10 + a.m12*b.m20 + a.m13*b.m30,
   a.m10*b.m01 + a.m11*b.m11 + a.m12*b.m21 + a.m13*b.m31,
   a.m10*b.m02 + a.m11*b.m12 + a.m12*b.m22 + a.m13*b.m32,
   a.m10*b.m03 + a.m11*b.m13 + a.m12*b.m23 + a.m13*b.m33,
   a.m20*b.m00 + a.m21*b.m10 + a.m22*b.m20 + a.m23*b.m30,
   a.m20*b.m01 + a.m21*b.m11 + a.m22*b.m21 + a.m23*b.m31,
   a.m20*b.m02 + a.m21*b.m12 + a.m22*b.m22 + a.m23*b.m32,
   a.m20*b.m03 + a.m21*b.m13 + a.m22*b.m23 + a.m23*b.m33,
   a.m30*b.m00 + a.m31*b.m10 + a.m32*b.m20 + a.m33*b.m30,
   a.m30*b.m01 + a.m31*b.m11 + a.m32*b.m21 + a.m33*b.m31,
   a.m30*b.m02 + a.m31*b.m12 + a.m32*b.m22 + a.m33*b.m32,
   a.m30*b.m03 + a.m31*b.m13 + a.m32*b.m23 + a.m33*b.m33⟩

theorem M4.mul_assoc (a b c : M4) : (a.mul b).mul c = a.mul (b.mul c) := by
  ext <;> simp only [M4.mul] <;> ring

/-- Modelled from the spec: `Matrix4.translation(v)`. -/
def translationM (v : Vec3) : M4 :=
  ⟨1,0,0,v.x, 0,1,0,v.y, 0,0,1,v.z, 0,0,0,1⟩

/-- Modelled from the spec: `Matrix4.scaling(v)`. -/
def scalingM (v : Vec3) : M4 :=
  ⟨v.x,0,0,0, 0,v.y,0,0, 0,0,v.z,0, 0,0,0,1⟩

/-- Modelled from the spec: `Matrix4.rotationX(θ)`, with the cosine and
sine of `θ` passed in explicitly (the engine's trigonometry lives in the
missing math package, so theorems quantify over the trig functions). -/
def rotXM (c s : ℚ) : M4 :=
  ⟨1,0,0,0, 0,c,-s,0, 0,s,c,0, 0,0,0,1⟩

/-- Modelled from the spec: `Matrix4.rotationY(θ)` from cosine/sine. -/
def rotYM (c s : ℚ) : M4 :=
  ⟨c,0,s,0, 0,1,0,0, -s,0,c,0, 0,0,0,1⟩

/-- Modelled from the spec: `Matrix4.rotationZ(θ)` from cosine/sine. -/
def rotZM (c s : ℚ) : M4 :=
  ⟨c,-s,0,0, s,c,0,0, 0,0,1,0, 0,0,0,1⟩

/-- Modelled from the spec: apply a matrix to a point `(x, y, z, 1)`
with perspective divide (division by a zero `w` yields `0` in ℚ). -/
def M4.transformPoint (m : M4) (v : Vec3) : Vec3 :=
  let w := m.m30 * v.x + m.m31 * v.y + m.m32 * v.z + m.m33
  ⟨(m.m00 * v.x + m.m01 * v.y + m.m02 * v.z + m.m03) / w,
   (m.m10 * v.x + m.m11 * v.y + m.m12 * v.z + m.m13) / w,
   (m.m20 * v.x + m.m21 * v.y + m.m22 * v.z + m.m23) / w⟩

/-- Modelled from the spec: apply only the upper-left 3x3 rotation part
of a matrix to a direction vector. -/
def M4.transformDirection (m : M4) (v : Vec3) : Vec3 :=
  ⟨m.m00 * v.x + m.m01 * v.y + m.m02 * v.z,
   m.m10 * v.x + m.m11 * v.y + m.m12 * v.z,
   m.m20 * v.x + m.m21 * v.y + m.m22 * v.z⟩

/-- Modelled from the spec: 4x4 matrix inverse by the adjugate formula
(a singular matrix maps to the zero matrix, as `ℚ` division by the zero
determinant yields `0`). -/
def M4.inverse (m : M4) : M4 :=
  let b00 := m.m00 * m.m11 - m.m01 * m.m10
  let b01 := m.m00 * m.m21 - m.m01 * m.m20
  let b02 := m.m00 * m.m31 - m.m01 * m.m30
  let b03 := m.m10 * m.m21 - m.m11 * m.m20
  let b04 := m.m10 * m.m31 - m.m11 * m.m30
  let b05 := m.m20 * m.m31 - m.m21 * m.m30
  let b06 := m.m02 * m.m13 - m.m03 * m.m12
  let b07 := m.m02 * m.m23 - m.m03 * m.m22
  let b08 := m.m02 * m.m33 - m.m03 * m.m32
  let b09 := m.m12 * m.m23 - m.m13 * m.m22
  let b10 := m.m12 * m.m33 - m.m13 * m.m32
  let b11 := m.m22 * m.m33 - m.m23 * m.m32
  let det := b00 * b11 - b01 * b10 + b02 * b09 + b03 * b08 - b04 * b07 + b05 * b06
  ⟨(m.m11 * b11 - m.m21 * b10 + m.m31 * b09) / det,
   (m.m21 * b08 - m.m01 * b11 - m.m31 * b07) / det,
   (m.m01 * b10 - m.m11 * b08 + m.m31 * b06) / det,
   (m.m11 * b07 - m.m01 * b09 - m.m21 * b06) / det,
   (m.m12 * b05 - m.m22 * b04 + m.m32 * b03) / det,
   (m.m22 * b02 - m.m02 * b05 - m.m32 * b01) / det,
   (m.m02 * b04 - m.m12 * b02 + m.m32 * b00) / det,
   (m.m12 * b01 - m.m02 * b03 - m.m22 * b00) / det,
   (m.m10 * b11 - m.m20 * b10 + m.m30 * b09) / det,
   (m.m20 * b08 - m.m00 * b11 - m.m30 * b07) / det,
   (m.m00 * b10 - m.m10 * b08 + m.m30 * b06) / det,
   (m.m10 * b07 - m.m00 * b09 - m.m20 * b06) / det,
   (m.m13 * b05 - m.m23 * b04 + m.m33 * b03) / det,
   (m.m23 * b02 - m.m03 * b05 - m.m33 * b01) / det,
   (m.m03 * b04 - m.m13 * b02 + m.m33 * b00) / det,
   (m.m13 * b01 - m.m03 * b03 - m.m23 * b00) / det⟩

/-! ## `Ray` (src/unnamed/part_011): Möller–Trumbore ray–triangle test -/

/-- Result record of `Ray.intersectTriangle`. -/
structure RayTriangleIntersection where
  t : ℚ
  point : Vec3
  faceNormal : Vec3
deriving DecidableEq

/-- A ray, as in `Ray` of src/unnamed/part_011. -/
structure Ray where
  origin : Vec3
  direction : Vec3
deriving DecidableEq

/-- `EPSILON` of `Ray.intersectTriangle`. -/
def rayEPSILON : ℚ := 1 / 1000000

/-- `Ray.at(t)`: point `origin + direction * t`. -/
def Ray.at (r : Ray) (t : ℚ) : Vec3 := r.origin.add (r.direction.scale t)

/-- `Ray.intersectTriangle(a, b, c)` from src/unnamed/part_011,
translated branch for branch. -/
def Ray.intersectTriangle (r : Ray) (a b c : Vec3) :
    Option RayTriangleIntersection :=
  let edge1 := b.sub a
  let edge2 := c.sub a
  let faceNormal := (edge1.cross edge2).normalize
  let h := r.direction.cross edge2
  let det := edge1.dot h
  if |det| < rayEPSILON then none
  else
    let invDet := 1 / det
    let s := r.origin.sub a
    let u := invDet * s.dot h
    if u < 0 ∨ u > 1 then none
    else
      let q := s.cross edge1
      let v := invDet * r.direction.dot q
      if v < 0 ∨ u + v > 1 then none
      else
        let t := invDet * edge2.dot q
        if t > rayEPSILON then some ⟨t, r.at t, faceNormal⟩
        else none

/-- C9: on the triangle `{(-1,-1,0), (1,-1,0), (0,1,0)}`, the ray from
`(0,0,5)` towards `(0,0,-1)` hits at `t = 5`, point `(0,0,0)`, with a
face normal of positive Z; the ray towards `(0,0,1)` misses; a ray
parallel to the triangle's plane misses. -/
theorem ray_intersectTriangle_spec_cases :
    (Ray.intersectTriangle ⟨⟨0,0,5⟩, ⟨0,0,-1⟩⟩ ⟨-1,-1,0⟩ ⟨1,-1,0⟩ ⟨0,1,0⟩ =
      some ⟨5, ⟨0,0,0⟩, ⟨0,0,1⟩⟩) ∧
    (0 < (1 : ℚ)) ∧
    (Ray.intersectTriangle ⟨⟨0,0,5⟩, ⟨0,0,1⟩⟩ ⟨-1,-1,0⟩ ⟨1,-1,0⟩ ⟨0,1,0⟩ =
      none) ∧
    (Ray.intersectTriangle ⟨⟨0,0,5⟩, ⟨1,0,0⟩⟩ ⟨-1,-1,0⟩ ⟨1,-1,0⟩ ⟨0,1,0⟩ =
      none) := by
  refine ⟨?_, by norm_num, ?_, ?_⟩ <;>
    norm_num [Ray.intersectTriangle, Ray.at, Vec3.add, Vec3.sub, Vec3.scale,
      Vec3.dot, Vec3.cross, Vec3.normalize, Vec3.len, ratSqrt, rayEPSILON,
      isqrtGo, abs]

/-! ## `Object3D` (src/packages/core/src/scene/Object3D.ts): matrix refresh

`updateMatrix` builds `localMatrix = T * (Rz * Ry * Rx) * S` from
position / rotation / scale, and `updateWorldMatrix(false, true)`
(the whole-hierarchy refresh driven by `Scene.updateMatrixWorld`)
combines each node with its parent's world matrix and recurses into the
children.  The hierarchy refreshed from a root is embedded as a tree. -/

mutual
/-- A transform-node hierarchy: per node its position, rotation (Euler
angles) and scale, plus its owned children. -/
inductive OTree where
  | mk (position rotation scale : Vec3) (children : OForest)

/-- The children list of a transform node. -/
inductive OForest where
  | nil
  | cons (t : OTree) (rest : OForest)
end

/-- `Object3D.updateMatrix` of Object3D.ts: local matrix
`T(position) * (Rz * Ry * Rx) * S(scale)`, with the rotation entries
obtained from the supplied cosine/sine functions `cf`/`sf`. -/
def computeLocalM (cf sf : ℚ → ℚ) (position rotation scale : Vec3) : M4 :=
  let scaleMatrix := scalingM scale
  let rotX := rotXM (cf rotation.x) (sf rotation.x)
  let rotY := rotYM (cf rotation.y) (sf rotation.y)
  let rotZ := rotZM (cf rotation.z) (sf rotation.z)
  let rotationMatrix := (rotZ.mul rotY).mul rotX
  let translationMatrix := translationM position
  (translationMatrix.mul rotationMatrix).mul scaleMatrix

/-- A refreshed node: the matrices `updateWorldMatrix` stored, together
with the transform state they were computed from. -/
inductive RNode where
  | mk (position rotation scale : Vec3) (localM worldM : M4)
      (children : List RNode)

mutual
/-- `Object3D.updateWorldMatrix(false, true)` over a hierarchy:
recompute the local matrix, combine with the parent's world matrix
(or copy the local matrix at a parentless root), then recurse into the
children with ancestor refresh disabled. -/
def refreshWorld (cf sf : ℚ → ℚ) (parentW : Option M4) : OTree → RNode
  | .mk p r s cs =>
    let lm := computeLocalM cf sf p r s
    let wm := match parentW with
      | none => lm
      | some w => w.mul lm
    .mk p r s lm wm (refreshForest cf sf wm cs)

/-- Children loop of `updateWorldMatrix`. -/
def refreshForest (cf sf : ℚ → ℚ) (w : M4) : OForest → List RNode
  | .nil => []
  | .cons t rest => refreshWorld cf sf (some w) t :: refreshForest cf sf w rest
end

/-- The per-node invariant of the claim: the local matrix is the TRS
product `T * Rz * Ry * Rx * S`, the world matrix is
`parent.worldMatrix *  localMatrix` (or the local matrix at a parentless
root), recursively at every visited node. -/
def rnodeOK (cf sf : ℚ → ℚ) (parentW : Option M4) : RNode → Prop
  | .mk p r s lm wm cs =>
    lm = ((((translationM p).mul (rotZM (cf r.z) (sf r.z))).mul
            (rotYM (cf r.y) (sf r.y))).mul
            (rotXM (cf r.x) (sf r.x))).mul (scalingM s) ∧
    (match parentW with
      | none => wm = lm
      | some w => wm = w.mul lm) ∧
    ∀ c ∈ cs, rnodeOK cf sf (some wm) c

mutual
theorem refreshWorld_ok (cf sf : ℚ → ℚ) (parentW : Option M4) (t : OTree) :
    rnodeOK cf sf parentW (refreshWorld cf sf parentW t) := by
  match t with
  | .mk p r s cs =>
    unfold refreshWorld rnodeOK computeLocalM
    simp only []
    refine ⟨by simp only [M4.mul_assoc], ?_, ?_⟩
    · cases parentW <;> simp
    · intro c hc
      exact refreshForest_ok cf sf _ cs c hc

theorem refreshForest_ok (cf sf : ℚ → ℚ) (w : M4) (cs : OForest) :
    ∀ c ∈ refreshForest cf sf w cs, rnodeOK cf sf (some w) c := by
  match cs with
  | .nil => intro c hc; simp [refreshForest] at hc
  | .cons t rest =>
    intro c hc
    simp only [refreshForest, List.mem_cons] at hc
    rcases hc with h | h
    · subst h; exact refreshWorld_ok cf sf (some w) t
    · exact refreshForest_ok cf sf w rest c h
end

/-- C2: after a world-matrix refresh from any node (with any parent
world matrix, including none for a parentless root), every visited
node's `localMatrix` equals `T(position) * Rz * Ry * Rx * S(scale)`, its
`worldMatrix` equals `parent.worldMatrix * localMatrix` under a parent,
and a parentless node's `worldMatrix` equals its `localMatrix`. -/
theorem object3D_refresh_world_matrices (cf sf : ℚ → ℚ) (parentW : Option M4)
    (t : OTree) : rnodeOK cf sf parentW (refreshWorld cf sf parentW t) :=
  refreshWorld_ok cf sf parentW t

/-! ## `Object3D` as a mutable object store

`add` / `remove` mutate parent pointers and children lists, and
`updateWorldMatrix(updateParents, updateChildren)` walks the (possibly
cyclic) object graph.  Objects are addressed by numeric identity in a
store; the store is total, unmentioned identities hold arbitrary nodes. -/

/-- The mutable state of one `Object3D`. -/
structure ONode where
  position : Vec3
  rotation : Vec3
  scale : Vec3
  localM : M4
  worldM : M4
  parentId : Option ℕ
  childIds : List ℕ

/-- The heap of `Object3D` instances, addressed by identity. -/
def Store : Type := ℕ → ONode

/-- In-place mutation of the object with identity `i`. -/
def Store.set (st : Store) (i : ℕ) (n : ONode) : Store :=
  fun j => if j = i then n else st j

/-- `Object3D.remove(child)`: if the child occurs in `children`, clear
its parent pointer and splice out the first occurrence. -/
def removeChild (st : Store) (a c : ℕ) : Store :=
  if c ∈ (st a).childIds then
    let st1 := st.set c { st c with parentId := none }
    st1.set a { st1 a with childIds := (st1 a).childIds.erase c }
  else st

/-- `Object3D.add(child)`: detach the child from any prior parent via
that parent's `remove`, then set the child's parent pointer and push it
onto this object's children. -/
def addChild (st : Store) (b c : ℕ) : Store :=
  let st1 := match (st c).parentId with
    | some p => removeChild st p c
    | none => st
  let st2 := st1.set c { st1 c with parentId := some b }
  st2.set b { st2 b with childIds := (st2 b).childIds ++ [c] }

/-- `Object3D.updateWorldMatrix(updateParents, updateChildren)` over the
store.  `fuel` bounds the recursion depth (the source recursion is
unbounded and diverges on cyclic parent chains; every theorem below
supplies enough fuel for the hierarchy at hand). -/
def uwm (cf sf : ℚ → ℚ) : ℕ → Store → ℕ → Bool → Bool → Store
  | 0, st, _, _, _ => st
  | fuel + 1, st, i, upParents, upChildren =>
    let st1 := if upParents then
        match (st i).parentId with
        | some p => uwm cf sf fuel st p true false
        | none => st
      else st
    let n := st1 i
    let lm := computeLocalM cf sf n.position n.rotation n.scale
    let wm := match n.parentId with
      | none => lm
      | some p => ((st1 p).worldM).mul lm
    let st2 := st1.set i { n with localM := lm, worldM := wm }
    if upChildren then
      (st2 i).childIds.foldl (fun s c => uwm cf sf fuel s c false true) st2
    else st2

/-- The matrix-refresh prefix of `Renderer.render(scene, camera)`:
`scene.updateMatrixWorld()` (that is, `updateWorldMatrix(false, true)`
from the scene root) followed by `camera.updateWorldMatrix(false, false)`. -/
def renderMatrixPhase (cf sf : ℚ → ℚ) (fuel : ℕ) (st : Store)
    (sceneId camId : ℕ) : Store :=
  let st1 := uwm cf sf fuel st sceneId false true
  uwm cf sf fuel st1 camId false false

/-! ### C8: `add` reparents atomically -/

/-- C8: when a node owned by parent `a` is added to a different parent
`b`, the prior parent's children list shrinks by one, the node's parent
pointer becomes `b`, the node is appended to `b`'s children, and at no
point — before, between the detach and the attach, or after — does the
node sit in two children lists. -/
theorem Store.get_set_same (st : Store) (i : ℕ) (n : ONode) :
    (st.set i n) i = n := by
  simp [Store.set]

theorem Store.get_set_other (st : Store) (i : ℕ) (n : ONode) (j : ℕ)
    (h : j ≠ i) : (st.set i n) j = st j := by
  simp [Store.set, h]

theorem removeChild_childIds (st : Store) (a c : ℕ)
    (hmem : c ∈ (st a).childIds) (x : ℕ) :
    ((removeChild st a c) x).childIds =
      if x = a then ((st a).childIds).erase c else (st x).childIds := by
  rw [removeChild, if_pos hmem]
  by_cases hxa : x = a
  · subst hxa
    rw [Store.get_set_same, if_pos rfl]
    by_cases hac : x = c
    · subst hac; rw [Store.get_set_same]
    · rw [Store.get_set_other _ _ _ _ hac]
  · rw [Store.get_set_other _ _ _ _ hxa, if_neg hxa]
    by_cases hxc : x = c
    · subst hxc; rw [Store.get_set_same]
    · rw [Store.get_set_other _ _ _ _ hxc]

theorem removeChild_parentId (st : Store) (a c : ℕ)
    (hmem : c ∈ (st a).childIds) (x : ℕ) :
    ((removeChild st a c) x).parentId =
      if x = c then none else (st x).parentId := by
  rw [removeChild, if_pos hmem]
  by_cases hxa : x = a
  · subst hxa
    rw [Store.get_set_same]
    by_cases hac : x = c
    · subst hac; rw [if_pos rfl, Store.get_set_same]
    · rw [if_neg hac, Store.get_set_other _ _ _ _ hac]
  · rw [Store.get_set_other _ _ _ _ hxa]
    by_cases hxc : x = c
    · subst hxc; rw [if_pos rfl, Store.get_set_same]
    · rw [if_neg hxc, Store.get_set_other _ _ _ _ hxc]

theorem addChild_childIds (st : Store) (a b c : ℕ)
    (hparent : (st c).parentId = some a)
    (hmem : c ∈ (st a).childIds) (x : ℕ) :
    ((addChild st b c) x).childIds =
      if x = b then ((removeChild st a c) b).childIds ++ [c]
      else ((removeChild st a c) x).childIds := by
  rw [addChild, hparent]
  by_cases hxb : x = b
  · subst hxb
    rw [Store.get_set_same, if_pos rfl]
    by_cases hbc : x = c
    · subst hbc; rw [Store.get_set_same]
    · rw [Store.get_set_other _ _ _ _ hbc]
  · rw [Store.get_set_other _ _ _ _ hxb, if_neg hxb]
    by_cases hxc : x = c
    · subst hxc; rw [Store.get_set_same]
    · rw [Store.get_set_other _ _ _ _ hxc]

theorem addChild_parentId_self (st : Store) (a b c : ℕ)
    (hparent : (st c).parentId = some a) :
    ((addChild st b c) c).parentId = some b := by
  rw [addChild, hparent]
  by_cases hbc : c = b
  · subst hbc; rw [Store.get_set_same, Store.get_set_same]
  · rw [Store.get_set_other _ _ _ _ hbc, Store.get_set_same]

/-- C8: when a node owned by parent `a` is added to a different parent
`b`, the prior parent's children list shrinks by one, the node's parent
pointer becomes `b`, the node is appended to `b`'s children, and at no
point — before, between the detach and the attach, or after — does the
node sit in two children lists. -/
theorem object3D_add_reparents_atomically (st : Store) (a b c : ℕ)
    (hparent : (st c).parentId = some a)
    (hmem : c ∈ (st a).childIds)
    (hcount : ((st a).childIds).count c = 1)
    (honly : ∀ x, x ≠ a → c ∉ (st x).childIds)
    (hab : a ≠ b) :
    ((addChild st b c) a).childIds.length + 1 = ((st a).childIds).length ∧
    ((addChild st b c) c).parentId = some b ∧
    ((addChild st b c) b).childIds = (st b).childIds ++ [c] ∧
    (∀ x, c ∉ ((removeChild st a c) x).childIds) ∧
    (∀ x, x ≠ b → c ∉ ((addChild st b c) x).childIds) ∧
    (((addChild st b c) b).childIds).count c = 1 := by
  have hnotb : c ∉ (st b).childIds := honly b (fun h => hab h.symm)
  have herase_not : c ∉ ((st a).childIds).erase c := by
    have h := List.count_erase_self c ((st a).childIds)
    rw [hcount] at h
    exact (List.count_eq_zero).1 (by omega)
  have hmid : ∀ x, c ∉ ((removeChild st a c) x).childIds := by
    intro x
    rw [removeChild_childIds st a c hmem x]
    by_cases hxa : x = a
    · rw [if_pos hxa]; exact herase_not
    · rw [if_neg hxa]; exact honly x hxa
  have hremb : ((removeChild st a c) b).childIds = (st b).childIds := by
    rw [removeChild_childIds st a c hmem b, if_neg (fun h => hab h.symm)]
  refine ⟨?_, addChild_parentId_self st a b c hparent, ?_, hmid, ?_, ?_⟩
  · rw [addChild_childIds st a b c hparent hmem a, if_neg hab,
      removeChild_childIds st a c hmem a, if_pos rfl]
    have h1 := List.length_erase_of_mem hmem
    have h2 := List.length_pos_of_mem hmem
    omega
  · rw [addChild_childIds st a b c hparent hmem b, if_pos rfl, hremb]
  · intro x hxb
    rw [addChild_childIds st a b c hparent hmem x, if_neg hxb]
    exact hmid x
  · rw [addChild_childIds st a b c hparent hmem b, if_pos rfl, hremb,
      List.count_append]
    rw [(List.count_eq_zero).2 hnotb]
    simp

/-- A concrete heap for the C8 witness: node 2 is owned by node 0, node
1 has no children, every other identity is an isolated default node. -/
def c8Store : Store := fun j =>
  if j = 0 then
    ⟨⟨0,0,0⟩, ⟨0,0,0⟩, ⟨1,1,1⟩, M4.id, M4.id, none, [2]⟩
  else if j = 2 then
    ⟨⟨0,0,0⟩, ⟨0,0,0⟩, ⟨1,1,1⟩, M4.id, M4.id, some 0, []⟩
  else
    ⟨⟨0,0,0⟩, ⟨0,0,0⟩, ⟨1,1,1⟩, M4.id, M4.id, none, []⟩

theorem object3D_add_reparents_atomically_witness :
    ((c8Store 2).parentId = some 0 ∧ 2 ∈ (c8Store 0).childIds ∧
      ((c8Store 0).childIds).count 2 = 1 ∧ (0 : ℕ) ≠ 1) ∧
    (((addChild c8Store 1 2) 0).childIds.length + 1 =
        ((c8Store 0).childIds).length ∧
      ((addChild c8Store 1 2) 2).parentId = some 1 ∧
      ((addChild c8Store 1 2) 1).childIds = (c8Store 1).childIds ++ [2] ∧
      (∀ x, 2 ∉ ((removeChild c8Store 0 2) x).childIds) ∧
      (∀ x, x ≠ 1 → 2 ∉ ((addChild c8Store 1 2) x).childIds) ∧
      (((addChild c8Store 1 2) 1).childIds).count 2 = 1) := by
  refine ⟨⟨by simp [c8Store], by simp [c8Store], by simp [c8Store],
    by omega⟩, ?_⟩
  exact object3D_add_reparents_atomically c8Store 0 1 2
    (by simp [c8Store]) (by simp [c8Store]) (by simp [c8Store])
    (by intro x hx
        by_cases h2 : x = 2 <;> simp [c8Store, hx, h2])
    (by omega)

/-! ### C7: what `Renderer.render` refreshes for the camera

`Renderer.render` runs `scene.updateMatrixWorld()` and then
`camera.updateWorldMatrix(false, false)` — the camera refresh asks for
neither ancestors nor descendants. -/

theorem uwm_false_false_other (cf sf : ℚ → ℚ) (fuel : ℕ) (st : Store)
    (i j : ℕ) (h : j ≠ i) :
    uwm cf sf (fuel + 1) st i false false j = st j := by
  simp only [uwm, Bool.false_eq_true, if_false]
  exact Store.get_set_other _ _ _ _ h

theorem uwm_false_false_self (cf sf : ℚ → ℚ) (fuel : ℕ) (st : Store)
    (i : ℕ) :
    uwm cf sf (fuel + 1) st i false false i =
      { st i with
        localM := computeLocalM cf sf (st i).position (st i).rotation
          (st i).scale,
        worldM :=
          match (st i).parentId with
          | none => computeLocalM cf sf (st i).position (st i).rotation
              (st i).scale
          | some p => ((st p).worldM).mul
              (computeLocalM cf sf (st i).position (st i).rotation
                (st i).scale) } := by
  simp only [uwm, Bool.false_eq_true, if_false]
  exact Store.get_set_same _ _ _

/-- C7 (amended): in the matrix-refresh prefix of
`render(scene, camera)`, after the scene refreshes all world matrices
the camera's own refresh recomputes only the camera's local and world
matrix (against its parent's current world matrix); it touches neither
its ancestors nor its descendants — every other object, the camera's
parent chain included, is exactly as the scene refresh left it. -/
theorem renderer_camera_refresh_touches_only_camera (cf sf : ℚ → ℚ)
    (fuel : ℕ) (st : Store) (sceneId camId j : ℕ) (h : j ≠ camId) :
    renderMatrixPhase cf sf (fuel + 1) st sceneId camId j =
      uwm cf sf (fuel + 1) st sceneId false true j ∧
    renderMatrixPhase cf sf (fuel + 1) st sceneId camId camId =
      (fun st1 => { st1 camId with
        localM := computeLocalM cf sf (st1 camId).position
          (st1 camId).rotation (st1 camId).scale,
        worldM :=
          match (st1 camId).parentId with
          | none => computeLocalM cf sf (st1 camId).position
              (st1 camId).rotation (st1 camId).scale
          | some p => ((st1 p).worldM).mul
              (computeLocalM cf sf (st1 camId).position
                (st1 camId).rotation (st1 camId).scale) })
      (uwm cf sf (fuel + 1) st sceneId false true) := by
  constructor
  · exact uwm_false_false_other cf sf fuel _ camId j h
  · exact uwm_false_false_self cf sf fuel _ camId

/-- Trig table for the concrete C7 scenario (all rotations are zero, so
any cosine returning 1 and sine returning 0 matches). -/
def c7cf : ℚ → ℚ := fun _ => 1

/-- Sine table for the concrete C7 scenario. -/
def c7sf : ℚ → ℚ := fun _ => 0

/-- Concrete heap for the C7 counterexample: object 0 is an empty scene
root, object 1 is a camera rig translated by `(1,0,0)` that is *not* in
the scene, object 2 is the camera, child of object 1.  All matrices
start as identity. -/
def c7Store : Store := fun j =>
  if j = 1 then ⟨⟨1,0,0⟩, ⟨0,0,0⟩, ⟨1,1,1⟩, M4.id, M4.id, none, [2]⟩
  else if j = 2 then ⟨⟨0,0,0⟩, ⟨0,0,0⟩, ⟨1,1,1⟩, M4.id, M4.id, some 1, []⟩
  else ⟨⟨0,0,0⟩, ⟨0,0,0⟩, ⟨1,1,1⟩, M4.id, M4.id, none, []⟩

theorem c7_computeLocal_id :
    computeLocalM c7cf c7sf ⟨0,0,0⟩ ⟨0,0,0⟩ ⟨1,1,1⟩ = M4.id := by
  simp only [computeLocalM, c7cf, c7sf, scalingM, rotXM, rotYM, rotZM,
    translationM, M4.mul, M4.id, M4.mk.injEq]
  norm_num

theorem c7_computeLocal_trans :
    computeLocalM c7cf c7sf ⟨1,0,0⟩ ⟨0,0,0⟩ ⟨1,1,1⟩ =
      translationM ⟨1,0,0⟩ := by
  simp only [computeLocalM, c7cf, c7sf, scalingM, rotXM, rotYM, rotZM,
    translationM, M4.mul, M4.mk.injEq]
  norm_num

/-- C7 counterexample: in the render of `c7Store`'s scene (object 0)
with its camera (object 2), the camera's parent (object 1, translated
by `(1,0,0)`) keeps its stale identity world matrix, whereas the
ancestors-only refresh the claim describes
(`updateWorldMatrix(true, false)`) would set it to `T(1,0,0)` — so the
camera's refresh in `Renderer.render` does not update its ancestors. -/
theorem renderer_camera_ancestors_stale_cex :
    ((renderMatrixPhase c7cf c7sf 2 c7Store 0 2) 1).worldM = M4.id ∧
    ((uwm c7cf c7sf 2 (uwm c7cf c7sf 2 c7Store 0 false true) 2
        true false) 1).worldM = translationM ⟨1,0,0⟩ ∧
    M4.id ≠ translationM ⟨1,0,0⟩ := by
  have hscene : ∀ j, j ≠ 0 →
      uwm c7cf c7sf 2 c7Store 0 false true j = c7Store j := by
    intro j hj
    simp only [uwm, Bool.false_eq_true, if_false, if_true,
      Store.get_set_same]
    norm_num [show (c7Store 0).childIds = [] from rfl, List.foldl]
    exact Store.get_set_other _ _ _ _ hj
  refine ⟨?_, ?_, ?_⟩
  · have h1 : (renderMatrixPhase c7cf c7sf 2 c7Store 0 2) 1 =
        uwm c7cf c7sf 2 c7Store 0 false true 1 := by
      have := uwm_false_false_other c7cf c7sf 1
        (uwm c7cf c7sf 2 c7Store 0 false true) 2 1 (by omega)
      simpa [renderMatrixPhase] using this
    rw [h1, hscene 1 (by omega)]
    rfl
  · have hs1 : (uwm c7cf c7sf 2 c7Store 0 false true) 1 = c7Store 1 :=
      hscene 1 (by omega)
    have hs2 : (uwm c7cf c7sf 2 c7Store 0 false true) 2 = c7Store 2 :=
      hscene 2 (by omega)
    -- ancestors-only refresh of the camera: first refresh parent 1
    simp only [uwm, hs2]
    norm_num [c7Store, Store.set, hs1, hs2, c7_computeLocal_trans]
  · intro h
    have := congrArg M4.m03 h
    simp [M4.id, translationM] at this

theorem renderer_camera_refresh_touches_only_camera_witness :
    ((1 : ℕ) ≠ 2) ∧
    (renderMatrixPhase c7cf c7sf (1 + 1) c7Store 0 2 1 =
        uwm c7cf c7sf (1 + 1) c7Store 0 false true 1 ∧
      renderMatrixPhase c7cf c7sf (1 + 1) c7Store 0 2 2 =
        (fun st1 => { st1 2 with
          localM := computeLocalM c7cf c7sf (st1 2).position
            (st1 2).rotation (st1 2).scale,
          worldM :=
            match (st1 2).parentId with
            | none => computeLocalM c7cf c7sf (st1 2).position
                (st1 2).rotation (st1 2).scale
            | some p => ((st1 p).worldM).mul
                (computeLocalM c7cf c7sf (st1 2).position
                  (st1 2).rotation (st1 2).scale) })
        (uwm c7cf c7sf (1 + 1) c7Store 0 false true)) :=
  ⟨by omega,
    renderer_camera_refresh_touches_only_camera c7cf c7sf 1 c7Store 0 2 1
      (by omega)⟩

/-! ## `PipelineCache` (src/unnamed/part_005 / part_006)

`getOrCreate(material)` derives the key `` `${material.type}_${topology}` ``,
returns the cached pipeline when present, otherwise compiles a new one
from the material's declared shaders/layout and stores it.  Pipeline
objects are identity tokens allocated from a counter, so two cache
entries built by distinct `createRenderPipeline` calls are never
reference-equal. -/

/-- The slice of the `Material` contract `PipelineCache.getOrCreate`
reads: `type`, topology, shader sources, and the vertex layout stride. -/
structure MatP where
  type : String
  topology : String
  vertexShader : String
  fragmentShader : String
  arrayStride : ℕ
deriving DecidableEq

/-- A `GPURenderPipeline` as created by `PipelineCache`: its object
identity plus the descriptor fields the cache filled in. -/
structure Pipeline where
  id : ℕ
  label : String
  vsCode : String
  fsCode : String
  arrayStride : ℕ
  topology : String
  format : String
  sampleCount : ℕ
deriving DecidableEq

/-- The `PipelineCache` state: construction options, the key-indexed
entry map (as an insertion-ordered association list) and the allocator
for pipeline object identities. -/
structure PCState where
  format : String
  sampleCount : ℕ
  entries : List (String × Pipeline)
  nextId : ℕ

/-- `` `${material.type}_${topology}` `` of `getOrCreate`. -/
def pipelineKey (m : MatP) : String := m.type ++ "_" ++ m.topology

/-- `Map.get` over the association list. -/
def findEntry (k : String) : List (String × Pipeline) → Option Pipeline
  | [] => none
  | e :: rest => if e.1 = k then some e.2 else findEntry k rest

/-- The pipeline object `createRenderPipeline` builds for a material,
given the identity token to allocate for it. -/
def buildPipeline (st : PCState) (m : MatP) : Pipeline :=
  ⟨st.nextId, m.type ++ " Pipeline", m.vertexShader, m.fragmentShader,
    m.arrayStride, m.topology, st.format, st.sampleCount⟩

/-- `PipelineCache.getOrCreate(material)`. -/
def PCState.getOrCreate (st : PCState) (m : MatP) : Pipeline × PCState :=
  match findEntry (pipelineKey m) st.entries with
  | some cached => (cached, st)
  | none =>
    (buildPipeline st m,
      ⟨st.format, st.sampleCount,
        st.entries ++ [(pipelineKey m, buildPipeline st m)], st.nextId + 1⟩)

/-- A fresh `PipelineCache` with the given construction options. -/
def pcInit (format : String) (sampleCount : ℕ) : PCState :=
  ⟨format, sampleCount, [], 0⟩

/-- A sequence of `getOrCreate` calls, collecting the returned
pipelines. -/
def runPipelineCalls (st : PCState) : List MatP → List Pipeline × PCState
  | [] => ([], st)
  | m :: ms =>
    let r := st.getOrCreate m
    let rest := runPipelineCalls r.2 ms
    (r.1 :: rest.1, rest.2)

/-- Placeholder material used only to totalize list indexing. -/
def matPDefault : MatP := ⟨"", "", "", "", 0⟩

/-- Placeholder pipeline used only to totalize list indexing. -/
def pipelineDefault : Pipeline := ⟨0, "", "", "", 0, "", "", 0⟩

theorem getOrCreate_of_found {st : PCState} {m : MatP} {p : Pipeline}
    (h : findEntry (pipelineKey m) st.entries = some p) :
    st.getOrCreate m = (p, st) := by
  rw [PCState.getOrCreate, h]

theorem getOrCreate_of_notfound {st : PCState} {m : MatP}
    (h : findEntry (pipelineKey m) st.entries = none) :
    st.getOrCreate m = (buildPipeline st m,
      ⟨st.format, st.sampleCount,
        st.entries ++ [(pipelineKey m, buildPipeline st m)],
        st.nextId + 1⟩) := by
  rw [PCState.getOrCreate, h]

theorem runPipelineCalls_length (st : PCState) (ms : List MatP) :
    (runPipelineCalls st ms).1.length = ms.length := by
  induction ms generalizing st with
  | nil => rfl
  | cons m ms ih => simp [runPipelineCalls, ih]

theorem findEntry_append_left {k : String} {l1 : List (String × Pipeline)}
    (l2 : List (String × Pipeline)) {p : Pipeline}
    (h : findEntry k l1 = some p) : findEntry k (l1 ++ l2) = some p := by
  induction l1 with
  | nil => exact absurd h (by simp [findEntry])
  | cons e rest ih =>
    by_cases he : e.1 = k
    · rw [findEntry, if_pos he] at h
      rw [List.cons_append, findEntry, if_pos he]
      exact h
    · rw [findEntry, if_neg he] at h
      rw [List.cons_append, findEntry, if_neg he]
      exact ih h

theorem findEntry_append_none {k : String} {l1 : List (String × Pipeline)}
    (l2 : List (String × Pipeline)) (h : findEntry k l1 = none) :
    findEntry k (l1 ++ l2) = findEntry k l2 := by
  induction l1 with
  | nil => rw [List.nil_append]
  | cons e rest ih =>
    by_cases he : e.1 = k
    · rw [findEntry, if_pos he] at h
      exact absurd h (by simp)
    · rw [findEntry, if_neg he] at h
      rw [List.cons_append, findEntry, if_neg he]
      exact ih h

theorem findEntry_mem {k : String} {l : List (String × Pipeline)}
    {p : Pipeline} (h : findEntry k l = some p) : (k, p) ∈ l := by
  induction l with
  | nil => exact absurd h (by simp [findEntry])
  | cons e rest ih =>
    by_cases he : e.1 = k
    · rw [findEntry, if_pos he, Option.some.injEq] at h
      have : (k, p) = e := by
        obtain ⟨e1, e2⟩ := e
        simp only at he h
        rw [he, h]
      rw [this]
      exact List.mem_cons_self _ _
    · rw [findEntry, if_neg he] at h
      exact List.mem_cons_of_mem _ (ih h)

theorem findEntry_none_notkey {k : String} {l : List (String × Pipeline)}
    (h : findEntry k l = none) : ∀ e ∈ l, e.1 ≠ k := by
  induction l with
  | nil => simp
  | cons e rest ih =>
    by_cases he : e.1 = k
    · rw [findEntry, if_pos he] at h
      exact absurd h (by simp)
    · rw [findEntry, if_neg he] at h
      intro x hx
      rcases List.mem_cons.1 hx with hx | hx
      · rw [hx]; exact he
      · exact ih h x hx

/-- Well-formedness of the cache state: every stored pipeline identity
is below the allocator, and neither identities nor keys repeat. -/
def pcWF (st : PCState) : Prop :=
  (∀ e ∈ st.entries, e.2.id < st.nextId) ∧
  (st.entries.map (fun e => e.2.id)).Nodup ∧
  (st.entries.map Prod.fst).Nodup

theorem pcWF_init (format : String) (sampleCount : ℕ) :
    pcWF (pcInit format sampleCount) := by
  refine ⟨?_, ?_, ?_⟩ <;> simp [pcInit]

theorem getOrCreate_pcWF {st : PCState} (m : MatP) (h : pcWF st) :
    pcWF ((st.getOrCreate m).2) := by
  rcases h with ⟨hbound, hids, hkeys⟩
  cases hfind : findEntry (pipelineKey m) st.entries with
  | some cached =>
    rw [getOrCreate_of_found hfind]
    exact ⟨hbound, hids, hkeys⟩
  | none =>
    rw [getOrCreate_of_notfound hfind]
    refine ⟨?_, ?_, ?_⟩
    · intro e he
      simp only [List.mem_append, List.mem_singleton] at he
      rcases he with he | he
      · exact Nat.lt_succ_of_lt (hbound e he)
      · rw [he]; exact Nat.lt_succ_self _
    · rw [List.map_append, List.nodup_append]
      refine ⟨hids, by simp, ?_⟩
      intro x hx
      simp only [List.mem_map] at hx
      rcases hx with ⟨e, he, hx⟩
      have := hbound e he
      simp only [List.map_cons, List.map_nil, List.mem_singleton,
        buildPipeline]
      omega
    · rw [List.map_append, List.nodup_append]
      refine ⟨hkeys, by simp, ?_⟩
      intro x hx
      simp only [List.mem_map] at hx
      rcases hx with ⟨e, he, hx⟩
      simp only [List.map_cons, List.map_nil, List.mem_singleton]
      intro hk
      exact findEntry_none_notkey hfind e he (by rw [hx, hk])

theorem runPipelineCalls_pcWF {st : PCState} (ms : List MatP)
    (h : pcWF st) : pcWF ((runPipelineCalls st ms).2) := by
  induction ms generalizing st with
  | nil => exact h
  | cons m ms ih => exact ih (getOrCreate_pcWF m h)

theorem getOrCreate_stable {st : PCState} (m : MatP) {k : String}
    {p : Pipeline} (h : findEntry k st.entries = some p) :
    findEntry k ((st.getOrCreate m).2).entries = some p := by
  cases hfind : findEntry (pipelineKey m) st.entries with
  | some cached => rw [getOrCreate_of_found hfind]; exact h
  | none => rw [getOrCreate_of_notfound hfind]; exact findEntry_append_left _ h

theorem runPipelineCalls_stable {st : PCState} (ms : List MatP)
    {k : String} {p : Pipeline} (h : findEntry k st.entries = some p) :
    findEntry k ((runPipelineCalls st ms).2).entries = some p := by
  induction ms generalizing st with
  | nil => exact h
  | cons m ms ih => exact ih (getOrCreate_stable m h)

theorem getOrCreate_found (st : PCState) (m : MatP) :
    findEntry (pipelineKey m) ((st.getOrCreate m).2).entries =
      some (st.getOrCreate m).1 := by
  cases hfind : findEntry (pipelineKey m) st.entries with
  | some cached => rw [getOrCreate_of_found hfind]; exact hfind
  | none =>
    rw [getOrCreate_of_notfound hfind]
    simp only
    rw [findEntry_append_none _ hfind, findEntry, if_pos rfl]

theorem runPipelineCalls_char (st : PCState) (ms : List MatP) :
    ∀ i, i < ms.length →
      findEntry (pipelineKey (ms.getD i matPDefault))
          ((runPipelineCalls st ms).2).entries =
        some ((runPipelineCalls st ms).1.getD i pipelineDefault) := by
  induction ms generalizing st with
  | nil => intro i hi; exact absurd hi (by simp)
  | cons m ms ih =>
    intro i hi
    match i with
    | 0 =>
      simp only [runPipelineCalls, List.getD_cons_zero]
      exact runPipelineCalls_stable ms (getOrCreate_found st m)
    | i + 1 =>
      simp only [runPipelineCalls, List.getD_cons_succ]
      exact ih _ _ (by simpa using hi)

theorem findEntry_ids_distinct {l : List (String × Pipeline)}
    (hids : (l.map (fun e => e.2.id)).Nodup) {k1 k2 : String}
    {p1 p2 : Pipeline} (hk : k1 ≠ k2)
    (h1 : findEntry k1 l = some p1) (h2 : findEntry k2 l = some p2) :
    p1.id ≠ p2.id := by
  intro hid
  have hm1 := findEntry_mem h1
  have hm2 := findEntry_mem h2
  have := List.inj_on_of_nodup_map hids hm1 hm2 hid
  exact hk (congrArg Prod.fst this)

theorem pipelineKey_ne_of_topology_ne {m1 m2 : MatP}
    (ht : m1.type = m2.type) (htop : m1.topology ≠ m2.topology) :
    pipelineKey m1 ≠ pipelineKey m2 := by
  intro h
  apply htop
  unfold pipelineKey at h
  rw [ht] at h
  have hd := congrArg String.data h
  simp only [String.data_append] at hd
  have h2 := List.append_cancel_left hd
  cases hm1 : m1.topology with
  | mk l1 =>
    cases hm2 : m2.topology with
    | mk l2 =>
      rw [hm1, hm2] at h2
      exact congrArg String.mk (by simpa using h2)

/-- C3: over any sequence of `getOrCreate` calls on one fresh
`PipelineCache`, calls whose materials share a (kind, topology) key
return the same (reference-equal) pipeline object; calls with the same
kind but different topologies return pipelines with distinct object
identities; and the cache never holds two entries for one key nor two
entries for one pipeline object. -/
theorem pipelineCache_getOrCreate_sharing (format : String)
    (sampleCount : ℕ) (ms : List MatP) (i j : ℕ)
    (hi : i < ms.length) (hj : j < ms.length) :
    (pipelineKey (ms.getD i matPDefault) =
        pipelineKey (ms.getD j matPDefault) →
      (runPipelineCalls (pcInit format sampleCount) ms).1.getD i
          pipelineDefault =
        (runPipelineCalls (pcInit format sampleCount) ms).1.getD j
          pipelineDefault) ∧
    ((ms.getD i matPDefault).type = (ms.getD j matPDefault).type →
      (ms.getD i matPDefault).topology ≠
        (ms.getD j matPDefault).topology →
      ((runPipelineCalls (pcInit format sampleCount) ms).1.getD i
          pipelineDefault).id ≠
        ((runPipelineCalls (pcInit format sampleCount) ms).1.getD j
          pipelineDefault).id) ∧
    (((runPipelineCalls (pcInit format sampleCount) ms).2.entries.map
        Prod.fst).Nodup ∧
      ((runPipelineCalls (pcInit format sampleCount) ms).2.entries.map
        (fun e => e.2.id)).Nodup) := by
  have hci := runPipelineCalls_char (pcInit format sampleCount) ms i hi
  have hcj := runPipelineCalls_char (pcInit format sampleCount) ms j hj
  have hwf := runPipelineCalls_pcWF ms (pcWF_init format sampleCount)
  refine ⟨?_, ?_, hwf.2.2, hwf.2.1⟩
  · intro hk
    rw [hk] at hci
    rw [hci] at hcj
    exact Option.some.inj hcj
  · intro ht htop
    exact findEntry_ids_distinct hwf.2.1
      (pipelineKey_ne_of_topology_ne ht htop) hci hcj

/-- Concrete call sequence for the C3 witness: two identical pbr
materials with triangle topology and one pbr material with line
topology. -/
def c3ms : List MatP :=
  [⟨"pbr", "triangle-list", "vs", "fs", 56⟩,
   ⟨"pbr", "triangle-list", "vs", "fs", 56⟩,
   ⟨"pbr", "line-list", "vs", "fs", 56⟩]

theorem pipelineCache_getOrCreate_sharing_witness :
    ((0 : ℕ) < c3ms.length ∧ (1 : ℕ) < c3ms.length) ∧
    ((pipelineKey (c3ms.getD 0 matPDefault) =
        pipelineKey (c3ms.getD 1 matPDefault) →
      (runPipelineCalls (pcInit "bgra8unorm" 4) c3ms).1.getD 0
          pipelineDefault =
        (runPipelineCalls (pcInit "bgra8unorm" 4) c3ms).1.getD 1
          pipelineDefault) ∧
    ((c3ms.getD 0 matPDefault).type = (c3ms.getD 1 matPDefault).type →
      (c3ms.getD 0 matPDefault).topology ≠
        (c3ms.getD 1 matPDefault).topology →
      ((runPipelineCalls (pcInit "bgra8unorm" 4) c3ms).1.getD 0
          pipelineDefault).id ≠
        ((runPipelineCalls (pcInit "bgra8unorm" 4) c3ms).1.getD 1
          pipelineDefault).id) ∧
    (((runPipelineCalls (pcInit "bgra8unorm" 4) c3ms).2.entries.map
        Prod.fst).Nodup ∧
      ((runPipelineCalls (pcInit "bgra8unorm" 4) c3ms).2.entries.map
        (fun e => e.2.id)).Nodup)) :=
  ⟨⟨by simp [c3ms], by simp [c3ms]⟩,
    pipelineCache_getOrCreate_sharing "bgra8unorm" 4 c3ms 0 1
      (by simp [c3ms]) (by simp [c3ms])⟩

/-! ## `SkyboxPass` (src/packages/core/src/renderer/SkyboxPass.ts)

`_getOrCreateResources(material)` caches one record of pipeline /
uniform buffer / bind group per bound material: a change of material
object identity destroys the uniform buffer and rebuilds everything; an
unchanged identity with a changed `bindingRevision` rebuilds only the
bind group; otherwise the record is returned as is.  GPU objects are
identity tokens from a counter; destroyed buffers are logged. -/

/-- The slice of `SkyboxMaterial` the pass reads: its object identity
and its monotonically incremented `bindingRevision`. -/
structure SkyMat where
  id : ℕ
  bindingRevision : ℕ
deriving DecidableEq

/-- The cached `SkyboxGPUResources` record. -/
structure SkyRes where
  pipelineId : ℕ
  uniformBufferId : ℕ
  bindGroupId : ℕ
  materialId : ℕ
  bindingRevision : ℕ
deriving DecidableEq

/-- The `SkyboxPass` state: the optional cached record, the allocator
for GPU object identities, and the log of destroyed uniform buffers. -/
structure SkyState where
  resources : Option SkyRes
  nextId : ℕ
  destroyed : List ℕ

/-- The full-rebuild tail of `_getOrCreateResources`: create pipeline,
uniform buffer and bind group (in that order) and store the record. -/
def skyBuild (st0 : SkyState) (m : SkyMat) : SkyRes × SkyState :=
  (⟨st0.nextId, st0.nextId + 1, st0.nextId + 2, m.id, m.bindingRevision⟩,
   ⟨some ⟨st0.nextId, st0.nextId + 1, st0.nextId + 2, m.id,
      m.bindingRevision⟩, st0.nextId + 3, st0.destroyed⟩)

/-- `SkyboxPass._getOrCreateResources(material)`, translated branch for
branch: (1) a different bound material destroys the cached uniform
buffer and clears the record, after which the full rebuild runs; (2)
same material but different `bindingRevision` replaces only the bind
group and stores the new revision; (3) an empty cache builds pipeline,
uniform buffer and bind group afresh; otherwise the cached record is
returned unchanged. -/
def skyGetOrCreateResources (st : SkyState) (m : SkyMat) :
    SkyRes × SkyState :=
  match st.resources with
  | none => skyBuild st m
  | some r =>
    if r.materialId ≠ m.id then
      skyBuild ⟨none, st.nextId, st.destroyed ++ [r.uniformBufferId]⟩ m
    else if r.materialId = m.id ∧ r.bindingRevision ≠ m.bindingRevision then
      (⟨r.pipelineId, r.uniformBufferId, st.nextId, r.materialId,
         m.bindingRevision⟩,
       ⟨some ⟨r.pipelineId, r.uniformBufferId, st.nextId, r.materialId,
          m.bindingRevision⟩, st.nextId + 1, st.destroyed⟩)
    else (r, st)

/-- C4: for a pass holding a cached record (with identities below the
allocator, as construction guarantees): a render with a different
material object destroys the cached uniform buffer and rebuilds
pipeline, uniform buffer and bind group as brand-new objects; a render
with the same material and a changed `bindingRevision` keeps the
pipeline and uniform buffer objects identical and replaces only the
bind group with a brand-new object, storing the new revision; a render
with the same material and the same revision returns the identical
record and leaves the state untouched. -/
theorem skybox_resource_rebuild_policy (st : SkyState) (m : SkyMat)
    (r : SkyRes) (hres : st.resources = some r)
    (hp : r.pipelineId < st.nextId) (hu : r.uniformBufferId < st.nextId)
    (hb : r.bindGroupId < st.nextId) :
    (r.materialId ≠ m.id →
      (skyGetOrCreateResources st m).2.destroyed =
          st.destroyed ++ [r.uniformBufferId] ∧
        (skyGetOrCreateResources st m).1.pipelineId ≠ r.pipelineId ∧
        (skyGetOrCreateResources st m).1.uniformBufferId ≠
          r.uniformBufferId ∧
        (skyGetOrCreateResources st m).1.bindGroupId ≠ r.bindGroupId ∧
        (skyGetOrCreateResources st m).1.materialId = m.id ∧
        (skyGetOrCreateResources st m).1.bindingRevision =
          m.bindingRevision) ∧
    (r.materialId = m.id → r.bindingRevision ≠ m.bindingRevision →
      (skyGetOrCreateResources st m).1.pipelineId = r.pipelineId ∧
        (skyGetOrCreateResources st m).1.uniformBufferId =
          r.uniformBufferId ∧
        (skyGetOrCreateResources st m).1.bindGroupId ≠ r.bindGroupId ∧
        (skyGetOrCreateResources st m).1.bindingRevision =
          m.bindingRevision ∧
        (skyGetOrCreateResources st m).2.destroyed = st.destroyed) ∧
    (r.materialId = m.id → r.bindingRevision = m.bindingRevision →
      (skyGetOrCreateResources st m).1 = r ∧
        (skyGetOrCreateResources st m).2.resources = st.resources ∧
        (skyGetOrCreateResources st m).2.nextId = st.nextId ∧
        (skyGetOrCreateResources st m).2.destroyed = st.destroyed) := by
  refine ⟨?_, ?_, ?_⟩
  · intro hne
    have hred : skyGetOrCreateResources st m =
        skyBuild ⟨none, st.nextId, st.destroyed ++ [r.uniformBufferId]⟩ m := by
      unfold skyGetOrCreateResources
      rw [hres]
      simp only [if_pos hne]
    rw [hred]
    unfold skyBuild
    refine ⟨rfl, by simp; omega, by simp; omega, by simp; omega, rfl, rfl⟩
  · intro heq hrev
    have hni : ¬ (r.materialId ≠ m.id) := by simp [heq]
    have hred : skyGetOrCreateResources st m =
        (⟨r.pipelineId, r.uniformBufferId, st.nextId, r.materialId,
           m.bindingRevision⟩,
         ⟨some ⟨r.pipelineId, r.uniformBufferId, st.nextId, r.materialId,
            m.bindingRevision⟩, st.nextId + 1, st.destroyed⟩) := by
      unfold skyGetOrCreateResources
      rw [hres]
      simp only [if_neg hni, if_pos (And.intro heq hrev)]
    rw [hred]
    refine ⟨rfl, rfl, by simp; omega, rfl, rfl⟩
  · intro heq hrev
    have hni : ¬ (r.materialId ≠ m.id) := by simp [heq]
    have hnc : ¬ (r.materialId = m.id ∧ r.bindingRevision ≠ m.bindingRevision) := by
      simp [hrev]
    have hred : skyGetOrCreateResources st m = (r, st) := by
      unfold skyGetOrCreateResources
      rw [hres]
      simp only [if_neg hni, if_neg hnc]
    rw [hred]
    exact ⟨rfl, rfl, rfl, rfl⟩

/-- Concrete cache state for the C4 witness: a record for material 7 at
revision 0 with objects 0/1/2 and allocator at 3. -/
def c4State : SkyState := ⟨some ⟨0, 1, 2, 7, 0⟩, 3, []⟩

/-- Concrete material for the C4 witness: the same bound material
(identity 7) whose `bindingRevision` was incremented to 1. -/
def c4Mat : SkyMat := ⟨7, 1⟩

theorem skybox_resource_rebuild_policy_witness :
    (c4State.resources = some ⟨0, 1, 2, 7, 0⟩ ∧
      (0 : ℕ) < c4State.nextId ∧ (1 : ℕ) < c4State.nextId ∧
      (2 : ℕ) < c4State.nextId ∧
      (SkyRes.mk 0 1 2 7 0).materialId = c4Mat.id ∧
      (SkyRes.mk 0 1 2 7 0).bindingRevision ≠ c4Mat.bindingRevision) ∧
    ((skyGetOrCreateResources c4State c4Mat).1.pipelineId =
        (SkyRes.mk 0 1 2 7 0).pipelineId ∧
      (skyGetOrCreateResources c4State c4Mat).1.uniformBufferId =
        (SkyRes.mk 0 1 2 7 0).uniformBufferId ∧
      (skyGetOrCreateResources c4State c4Mat).1.bindGroupId ≠
        (SkyRes.mk 0 1 2 7 0).bindGroupId ∧
      (skyGetOrCreateResources c4State c4Mat).1.bindingRevision =
        c4Mat.bindingRevision ∧
      (skyGetOrCreateResources c4State c4Mat).2.destroyed =
        c4State.destroyed) :=
  ⟨⟨rfl, by norm_num [c4State], by norm_num [c4State],
      by norm_num [c4State], rfl, by norm_num [c4Mat]⟩,
    (skybox_resource_rebuild_policy c4State c4Mat ⟨0, 1, 2, 7, 0⟩ rfl
        (by norm_num [c4State]) (by norm_num [c4State])
        (by norm_num [c4State])).2.1 rfl (by norm_num [c4Mat])⟩

/-! ## `MeshPass.render` (src/unnamed/part_009): per-draw uniform bytes

For one drawable the pass (1) issues `writeBuffer(uniformBuffer, 0,
mvpMatrix.data)` — 64 bytes of model-view-projection, (2) when the
material has a `writeUniformData`, obtains a scratch buffer (the
material's persistent `getUniformDataBuffer()` or a fresh zeroed
`ArrayBuffer(uniformBufferSize)`), validates
`getUniformDataOffset() ?? 64`, lets the material write into the
scratch, and copies `uniformBufferSize − offset` bytes from the scratch
to the GPU buffer at `offset`.  Buffers are byte functions `ℕ → ℚ`. -/

/-- `writeBuffer(dst, offset, src, offset, len)` with equal source and
destination offsets: bytes `[offset, offset+len)` come from `src`, the
rest stays. -/
def copyRegion (dst src : ℕ → ℚ) (offset len : ℕ) : ℕ → ℚ :=
  fun i => if offset ≤ i ∧ i < offset + len then src i else dst i

/-- The slice of the `Material` contract `MeshPass.render` reads for
the uniform protocol: declared buffer size, the optional
`getUniformDataOffset`, the optional persistent
`getUniformDataBuffer`, and the optional `writeUniformData` (an
arbitrary transformation of the scratch bytes). -/
structure MatU where
  uniformBufferSize : ℕ
  dataOffset : Option ℕ
  dataBuffer : Option (ℕ → ℚ)
  writer : Option ((ℕ → ℚ) → ℕ → (ℕ → ℚ))

/-- The uniform-buffer writes of one `MeshPass.render` draw: the
resulting GPU-resident uniform buffer plus the error of the throw, if
any (a `writeBuffer` already issued stays issued when a later statement
throws). -/
def meshPassWriteUniforms (mvp : ℕ → ℚ) (mat : MatU) (gpu : ℕ → ℚ) :
    (ℕ → ℚ) × Option String :=
  let gpu1 := copyRegion gpu mvp 0 64
  match mat.writer with
  | none => (gpu1, none)
  | some w =>
    let uniformData := mat.dataBuffer.getD (fun _ => 0)
    let uniformDataOffset := mat.dataOffset.getD 64
    if uniformDataOffset < 64 then
      (gpu1, some "Material.getUniformDataOffset() must be >= 64")
    else
      let written := w uniformData uniformDataOffset
      let customDataSize := mat.uniformBufferSize - uniformDataOffset
      if 0 < customDataSize then
        (copyRegion gpu1 written uniformDataOffset customDataSize, none)
      else (gpu1, none)

/-- C1: for a material with `uniformBufferSize = S`, a declared data
offset `o ≥ 64` (`o ≤ S`) and a uniform writer, one Mesh Pass draw does
not throw; bytes `[0, 64)` of the GPU uniform buffer hold the MVP
matrix, bytes `[64, o)` are exactly as before the draw (never mutated
by the material's write), bytes `[o, S)` — exactly `S − o` of them —
hold what the writer produced on the scratch buffer, and bytes from `S`
on are untouched. -/
theorem meshPass_uniform_protocol (mvp : ℕ → ℚ) (mat : MatU)
    (gpu : ℕ → ℚ) (w : (ℕ → ℚ) → ℕ → (ℕ → ℚ))
    (hw : mat.writer = some w) (ho : 64 ≤ mat.dataOffset.getD 64)
    (hos : mat.dataOffset.getD 64 ≤ mat.uniformBufferSize) :
    (meshPassWriteUniforms mvp mat gpu).2 = none ∧
    ∀ i,
      (i < 64 → (meshPassWriteUniforms mvp mat gpu).1 i = mvp i) ∧
      (64 ≤ i → i < mat.dataOffset.getD 64 →
        (meshPassWriteUniforms mvp mat gpu).1 i = gpu i) ∧
      (mat.dataOffset.getD 64 ≤ i → i < mat.uniformBufferSize →
        (meshPassWriteUniforms mvp mat gpu).1 i =
          w (mat.dataBuffer.getD (fun _ => 0))
            (mat.dataOffset.getD 64) i) ∧
      (mat.uniformBufferSize ≤ i →
        (meshPassWriteUniforms mvp mat gpu).1 i = gpu i) := by
  have hnl : ¬ (mat.dataOffset.getD 64 < 64) := by omega
  by_cases hpos : 0 < mat.uniformBufferSize - mat.dataOffset.getD 64
  · have hred : meshPassWriteUniforms mvp mat gpu =
        (copyRegion (copyRegion gpu mvp 0 64)
            (w (mat.dataBuffer.getD (fun _ => 0)) (mat.dataOffset.getD 64))
            (mat.dataOffset.getD 64)
            (mat.uniformBufferSize - mat.dataOffset.getD 64), none) := by
      unfold meshPassWriteUniforms
      rw [hw]
      simp only [if_neg hnl, if_pos hpos]
    rw [hred]
    refine ⟨rfl, ?_⟩
    intro i
    refine ⟨?_, ?_, ?_, ?_⟩
    · intro h64
      simp only [copyRegion]
      rw [if_neg (by omega), if_pos (by omega)]
    · intro h64 hlt
      simp only [copyRegion]
      rw [if_neg (by omega), if_neg (by omega)]
    · intro hge hlt
      simp only [copyRegion]
      rw [if_pos (by omega)]
    · intro hge
      simp only [copyRegion]
      rw [if_neg (by omega), if_neg (by omega)]
  · have hred : meshPassWriteUniforms mvp mat gpu =
        (copyRegion gpu mvp 0 64, none) := by
      unfold meshPassWriteUniforms
      rw [hw]
      simp only [if_neg hnl, if_neg hpos]
    rw [hred]
    refine ⟨rfl, ?_⟩
    intro i
    refine ⟨?_, ?_, ?_, ?_⟩
    · intro h64
      simp only [copyRegion]
      rw [if_pos (by omega)]
    · intro h64 hlt
      simp only [copyRegion]
      rw [if_neg (by omega)]
    · intro hge hlt
      omega
    · intro hge
      simp only [copyRegion]
      rw [if_neg (by omega)]

/-- Writer used by the C1 witness: stamp the value 42 at the offset the
renderer passes in, keep the rest of the scratch. -/
def c1Writer : (ℕ → ℚ) → ℕ → (ℕ → ℚ) :=
  fun buf o => fun i => if i = o then 42 else buf i

/-- Material for the C1 witness: 68-byte uniform buffer, offset 64, no
persistent scratch, `c1Writer` as `writeUniformData`. -/
def c1Mat : MatU := ⟨68, some 64, none, some c1Writer⟩

theorem meshPass_uniform_protocol_witness :
    (c1Mat.writer = some c1Writer ∧ 64 ≤ c1Mat.dataOffset.getD 64 ∧
      c1Mat.dataOffset.getD 64 ≤ c1Mat.uniformBufferSize) ∧
    ((meshPassWriteUniforms (fun _ => 9) c1Mat (fun _ => 7)).2 = none ∧
      ∀ i,
        (i < 64 →
          (meshPassWriteUniforms (fun _ => 9) c1Mat (fun _ => 7)).1 i =
            (fun _ => (9 : ℚ)) i) ∧
        (64 ≤ i → i < c1Mat.dataOffset.getD 64 →
          (meshPassWriteUniforms (fun _ => 9) c1Mat (fun _ => 7)).1 i =
            (fun _ => (7 : ℚ)) i) ∧
        (c1Mat.dataOffset.getD 64 ≤ i → i < c1Mat.uniformBufferSize →
          (meshPassWriteUniforms (fun _ => 9) c1Mat (fun _ => 7)).1 i =
            c1Writer (c1Mat.dataBuffer.getD (fun _ => 0))
              (c1Mat.dataOffset.getD 64) i) ∧
        (c1Mat.uniformBufferSize ≤ i →
          (meshPassWriteUniforms (fun _ => 9) c1Mat (fun _ => 7)).1 i =
            (fun _ => (7 : ℚ)) i)) :=
  ⟨⟨rfl, by norm_num [c1Mat], by norm_num [c1Mat]⟩,
    meshPass_uniform_protocol (fun _ => 9) c1Mat (fun _ => 7) c1Writer
      rfl (by norm_num [c1Mat]) (by norm_num [c1Mat])⟩

/-! ### C5: data offset below 64 -/

/-- Material for the C5 counterexample: 80-byte uniform buffer whose
declared data offset 32 lies inside the MVP region. -/
def c5Mat : MatU := ⟨80, some 32, none, some c1Writer⟩

/-- C5 counterexample: with a declared offset of 32 the draw does throw
— but not before any byte is written: the renderer's unconditional MVP
`writeBuffer` has already changed byte 0 of the GPU uniform buffer from
0 to 9 when the throw happens. -/
theorem meshPass_low_offset_bytes_written_cex :
    (meshPassWriteUniforms (fun _ => 9) c5Mat (fun _ => 0)).2 =
      some "Material.getUniformDataOffset() must be >= 64" ∧
    (meshPassWriteUniforms (fun _ => 9) c5Mat (fun _ => 0)).1 0 = 9 ∧
    (fun _ => (0 : ℚ)) 0 = 0 := by
  have hred : meshPassWriteUniforms (fun _ => 9) c5Mat (fun _ => 0) =
      (copyRegion (fun _ => 0) (fun _ => 9) 0 64,
        some "Material.getUniformDataOffset() must be >= 64") := by
    unfold meshPassWriteUniforms c5Mat
    norm_num
  rw [hred]
  refine ⟨rfl, ?_, rfl⟩
  simp only [copyRegion]
  norm_num

/-- C5 (amended): for a material with a uniform writer whose declared
data offset is below 64, the draw throws after the renderer's
unconditional MVP write but before the material's `writeUniformData` is
invoked: whatever the writer is, the GPU uniform buffer ends as the MVP
write alone left it — every byte at or beyond offset 64 is untouched, so
the material never writes a single byte, in particular none into
`[0, 64)`. -/
theorem meshPass_low_offset_throws_before_material_write (mvp : ℕ → ℚ)
    (mat : MatU) (gpu : ℕ → ℚ) (w : (ℕ → ℚ) → ℕ → (ℕ → ℚ))
    (hw : mat.writer = some w) (ho : mat.dataOffset.getD 64 < 64) :
    (meshPassWriteUniforms mvp mat gpu).2 =
      some "Material.getUniformDataOffset() must be >= 64" ∧
    (meshPassWriteUniforms mvp mat gpu).1 = copyRegion gpu mvp 0 64 ∧
    ∀ i, 64 ≤ i → (meshPassWriteUniforms mvp mat gpu).1 i = gpu i := by
  have hred : meshPassWriteUniforms mvp mat gpu =
      (copyRegion gpu mvp 0 64,
        some "Material.getUniformDataOffset() must be >= 64") := by
    unfold meshPassWriteUniforms
    rw [hw]
    simp only [if_pos ho]
  rw [hred]
  refine ⟨rfl, rfl, ?_⟩
  intro i hi
  simp only [copyRegion]
  rw [if_neg (by omega)]

theorem meshPass_low_offset_throws_before_material_write_witness :
    (c5Mat.writer = some c1Writer ∧ c5Mat.dataOffset.getD 64 < 64) ∧
    ((meshPassWriteUniforms (fun _ => 9) c5Mat (fun _ => 0)).2 =
        some "Material.getUniformDataOffset() must be >= 64" ∧
      (meshPassWriteUniforms (fun _ => 9) c5Mat (fun _ => 0)).1 =
        copyRegion (fun _ => 0) (fun _ => 9) 0 64 ∧
      ∀ i, 64 ≤ i →
        (meshPassWriteUniforms (fun _ => 9) c5Mat (fun _ => 0)).1 i =
          (fun _ => (0 : ℚ)) i) :=
  ⟨⟨rfl, by norm_num [c5Mat]⟩,
    meshPass_low_offset_throws_before_material_write (fun _ => 9) c5Mat
      (fun _ => 0) c1Writer rfl (by norm_num [c5Mat])⟩

/-! ## `Mesh.getInterleavedVertices` (src/unnamed/part_011) and the
end-to-end draw trace (C6)

The interleaver switches on the material kind: `texture` needs
positions + normals + UVs and throws when the geometry has no `uvs`
stream; `vertexColor` / `lineColor` interleave positions with the
material's colors; `line` returns the raw positions; every other kind
interleaves positions + normals. -/

/-- The geometry interface the interleaver reads (float arrays become
rational lists; an out-of-range JS index read is totalized to 0). -/
structure GeomM where
  positions : List ℚ
  normals : List ℚ
  uvs : Option (List ℚ)
  indices : List ℕ
  vertexCount : ℕ
  indexCount : ℕ

/-- The slice of the material the interleaver reads: its kind tag and,
for the color kinds, its per-vertex colors. -/
structure MatM where
  type : String
  colors : List ℚ

/-- Indexed read of a float array. -/
def getF (l : List ℚ) (i : ℕ) : ℚ := l.getD i 0

/-- `Mesh.getInterleavedVertices()`, translated case for case. -/
def getInterleavedVertices (g : GeomM) (m : MatM) :
    Except String (List ℚ) :=
  if m.type = "texture" then
    match g.uvs with
    | none => .error "TextureMaterial requires geometry with UV coordinates"
    | some uvs =>
      .ok ((List.range g.vertexCount).flatMap fun i =>
        [getF g.positions (3 * i), getF g.positions (3 * i + 1),
         getF g.positions (3 * i + 2),
         getF g.normals (3 * i), getF g.normals (3 * i + 1),
         getF g.normals (3 * i + 2),
         getF uvs (2 * i), getF uvs (2 * i + 1)])
  else if m.type = "vertexColor" then
    .ok ((List.range g.vertexCount).flatMap fun i =>
      [getF g.positions (3 * i), getF g.positions (3 * i + 1),
       getF g.positions (3 * i + 2),
       getF m.colors (3 * i), getF m.colors (3 * i + 1),
       getF m.colors (3 * i + 2)])
  else if m.type = "line" then
    .ok g.positions
  else if m.type = "lineColor" then
    .ok ((List.range g.vertexCount).flatMap fun i =>
      [getF g.positions (3 * i), getF g.positions (3 * i + 1),
       getF g.positions (3 * i + 2),
       getF m.colors (3 * i), getF m.colors (3 * i + 1),
       getF m.colors (3 * i + 2)])
  else
    .ok ((List.range g.vertexCount).flatMap fun i =>
      [getF g.positions (3 * i), getF g.positions (3 * i + 1),
       getF g.positions (3 * i + 2),
       getF g.normals (3 * i), getF g.normals (3 * i + 1),
       getF g.normals (3 * i + 2)])

/-- Modelled from the spec: `MeshResourceCache.getOrCreate` (the cache
class itself is not among the analysed sources) builds the drawable's
vertex buffer from the interleaved vertex data, so an interleave
failure propagates before any resource record is produced; on success
the record carries the index count and vertex count the draw uses. -/
def acquireMeshResources (g : GeomM) (m : MatM) :
    Except String (ℕ × ℕ) :=
  match getInterleavedVertices g m with
  | .error e => .error e
  | .ok _ => .ok (g.indexCount, g.vertexCount)

/-- A draw command recorded on the pass encoder. -/
inductive DrawEvent where
  | draw (vertexCount : ℕ)
  | drawIndexed (indexCount : ℕ)
deriving DecidableEq

/-- The draw calls `MeshPass.render` records, in drawable order: per
drawable the resources are resolved first (throwing aborts the whole
pass with the draws recorded so far), then one `drawIndexed` when an
index buffer exists, else one non-indexed `draw`. -/
def meshPassDraws : List (GeomM × MatM) → List DrawEvent × Option String
  | [] => ([], none)
  | mesh :: rest =>
    match acquireMeshResources mesh.1 mesh.2 with
    | .error e => ([], some e)
    | .ok r =>
      let ev := if 0 < r.1 then DrawEvent.drawIndexed r.1
        else DrawEvent.draw r.2
      let tail := meshPassDraws rest
      (ev :: tail.1, tail.2)

/-- The draw calls of one `Renderer.render`: the skybox full-screen
triangle first when the scene has a skybox material, then the mesh
pass over the collected drawables. -/
def renderSceneDraws (skybox : Bool) (meshes : List (GeomM × MatM)) :
    List DrawEvent × Option String :=
  let tail := meshPassDraws meshes
  ((if skybox then [DrawEvent.draw 3] else []) ++ tail.1, tail.2)

/-- C6: for any drawable whose material is of the `texture` kind (a
kind that requires UV coordinates) over a geometry without a `uvs`
stream, building the interleaved vertex data throws immediately, and a
render of a scene holding just that drawable (no skybox) throws with no
draw call issued. -/
theorem texture_material_missing_uvs_fails_fast (g : GeomM) (m : MatM)
    (ht : m.type = "texture") (hu : g.uvs = none) :
    getInterleavedVertices g m =
      .error "TextureMaterial requires geometry with UV coordinates" ∧
    renderSceneDraws false [(g, m)] =
      ([], some "TextureMaterial requires geometry with UV coordinates") := by
  have hint : getInterleavedVertices g m =
      .error "TextureMaterial requires geometry with UV coordinates" := by
    unfold getInterleavedVertices
    rw [if_pos ht, hu]
  refine ⟨hint, ?_⟩
  unfold renderSceneDraws meshPassDraws acquireMeshResources
  rw [hint]
  simp

/-- Geometry for the C6 witness: one triangle with no `uvs` stream. -/
def c6Geom : GeomM :=
  ⟨[0,0,0, 1,0,0, 0,1,0], [0,0,1, 0,0,1, 0,0,1], none, [0,1,2], 3, 3⟩

/-- Material for the C6 witness: the `texture` kind. -/
def c6Mat : MatM := ⟨"texture", []⟩

theorem texture_material_missing_uvs_fails_fast_witness :
    (c6Mat.type = "texture" ∧ c6Geom.uvs = none) ∧
    (getInterleavedVertices c6Geom c6Mat =
        .error "TextureMaterial requires geometry with UV coordinates" ∧
      renderSceneDraws false [(c6Geom, c6Mat)] =
        ([], some "TextureMaterial requires geometry with UV coordinates")) :=
  ⟨⟨rfl, rfl⟩, texture_material_missing_uvs_fails_fast c6Geom c6Mat rfl rfl⟩

/-! ## `Raycaster` (src/packages/core/src/Raycaster.ts)

`intersectObject(object, recursive)` tests the object itself through
`_intersectObject` and, when `recursive` is set, additionally tests each
*direct* child — `_intersectObject` never descends into children, so
grandchildren are never tested.  The collected intersections are sorted
by ascending distance (`(a, b) => a.distance - b.distance`). -/

/-- The geometry streams `_intersectObject` reads from a mesh. -/
structure MeshData where
  positions : List ℚ
  indices : List ℕ
  uvs : Option (List ℚ)

/-- A scene node as the raycaster sees it: object identity, transform
state, visibility, the optional mesh geometry, and children. -/
structure RCNode where
  id : ℕ
  position : Vec3
  rotation : Vec3
  scale : Vec3
  visible : Bool
  geom : Option MeshData
  children : List RCNode

/-- An `Intersection` record (the `object` reference becomes the mesh
node's identity). -/
structure Hit where
  distance : ℚ
  point : Vec3
  objectId : ℕ
  faceIndex : ℕ
  normal : Vec3
  uv : Option (ℚ × ℚ)

/-- The raycaster state: its ray, `near`, and `far` (`none` models the
default `Infinity`). -/
structure RaycasterM where
  ray : Ray
  near : ℚ
  far : Option ℚ

/-- The `t > this.far` test (always false against `Infinity`). -/
def farExceeded (far : Option ℚ) (t : ℚ) : Bool :=
  match far with
  | none => false
  | some f => decide (f < t)

/-- `Raycaster._intersectObject(object, intersections)` for one node:
skip non-meshes and invisible meshes; refresh the node's world matrix
from its ancestor chain (`parentW` carries the ancestors' product);
transform the ray to local space; run Möller–Trumbore over every
complete index triple; filter by `near`/`far`; map point and normal
back to world space; compute the barycentric UV when the geometry has
UVs and the triangle is not degenerate.  Hits carry the node identity;
children are never visited here. -/
def intersectMeshNode (cf sf : ℚ → ℚ) (rc : RaycasterM) (parentW : M4)
    (n : RCNode) : List Hit :=
  match n.geom with
  | none => []
  | some g =>
    if n.visible = false then []
    else
      let world := parentW.mul
        (computeLocalM cf sf n.position n.rotation n.scale)
      let wInv := world.inverse
      let localOrigin := wInv.transformPoint rc.ray.origin
      let localDir := (wInv.transformDirection rc.ray.direction).normalize
      let localRay : Ray := ⟨localOrigin, localDir⟩
      (List.range (g.indices.length / 3)).flatMap fun f =>
        let i0 := g.indices.getD (3 * f) 0
        let i1 := g.indices.getD (3 * f + 1) 0
        let i2 := g.indices.getD (3 * f + 2) 0
        let v0 : Vec3 := ⟨getF g.positions (3 * i0),
          getF g.positions (3 * i0 + 1), getF g.positions (3 * i0 + 2)⟩
        let v1 : Vec3 := ⟨getF g.positions (3 * i1),
          getF g.positions (3 * i1 + 1), getF g.positions (3 * i1 + 2)⟩
        let v2 : Vec3 := ⟨getF g.positions (3 * i2),
          getF g.positions (3 * i2 + 1), getF g.positions (3 * i2 + 2)⟩
        match localRay.intersectTriangle v0 v1 v2 with
        | none => []
        | some res =>
          if res.t < rc.near ∨ farExceeded rc.far res.t then []
          else
            let worldPoint := world.transformPoint res.point
            let worldNormal :=
              (world.transformDirection res.faceNormal).normalize
            let distance := (rc.ray.origin.sub worldPoint).len
            let uv : Option (ℚ × ℚ) :=
              match g.uvs with
              | none => none
              | some uvs =>
                let edge1 := v1.sub v0
                let edge2 := v2.sub v0
                let pointLocal := res.point.sub v0
                let d00 := edge1.dot edge1
                let d01 := edge1.dot edge2
                let d11 := edge2.dot edge2
                let d20 := pointLocal.dot edge1
                let d21 := pointLocal.dot edge2
                let denom := d00 * d11 - d01 * d01
                if |denom| > 1 / 10000000000 then
                  let v := (d11 * d20 - d01 * d21) / denom
                  let w := (d00 * d21 - d01 * d20) / denom
                  let u := 1 - v - w
                  some (getF uvs (2 * i0) * u + getF uvs (2 * i1) * v +
                      getF uvs (2 * i2) * w,
                    getF uvs (2 * i0 + 1) * u + getF uvs (2 * i1 + 1) * v +
                      getF uvs (2 * i2 + 1) * w)
                else none
            [⟨distance, worldPoint, n.id, f, worldNormal, uv⟩]

/-- `Raycaster.intersectObject(object, recursive)`: test the object,
then — when recursive — each direct child (with the object's refreshed
world matrix as the child's ancestor product), then sort everything by
ascending distance. -/
def intersectObjectM (cf sf : ℚ → ℚ) (rc : RaycasterM) (parentW : M4)
    (t : RCNode) (recursive : Bool) : List Hit :=
  let base := intersectMeshNode cf sf rc parentW t
  let all := if recursive then
      base ++ t.children.flatMap (fun c =>
        intersectMeshNode cf sf rc
          (parentW.mul (computeLocalM cf sf t.position t.rotation t.scale))
          c)
    else base
  all.mergeSort (fun a b => decide (a.distance ≤ b.distance))

/-- The same hierarchy with everything below the direct children cut
off. -/
def pruneDeep (t : RCNode) : RCNode :=
  ⟨t.id, t.position, t.rotation, t.scale, t.visible, t.geom,
    t.children.map fun c =>
      ⟨c.id, c.position, c.rotation, c.scale, c.visible, c.geom, []⟩⟩

theorem intersectMeshNode_id (cf sf : ℚ → ℚ) (rc : RaycasterM)
    (parentW : M4) (n : RCNode) :
    ∀ h ∈ intersectMeshNode cf sf rc parentW n, h.objectId = n.id := by
  intro h hmem
  unfold intersectMeshNode at hmem
  split at hmem
  · simp at hmem
  · split at hmem
    · simp at hmem
    · simp only [List.mem_flatMap, List.mem_range] at hmem
      rcases hmem with ⟨f, _, hmem⟩
      split at hmem
      · simp at hmem
      · split at hmem
        · simp at hmem
        · simp only [List.mem_singleton] at hmem
          rw [hmem]

theorem intersectMeshNode_children_irrelevant (cf sf : ℚ → ℚ)
    (rc : RaycasterM) (parentW : M4) (i : ℕ) (p r s : Vec3) (vis : Bool)
    (g : Option MeshData) (cs cs' : List RCNode) :
    intersectMeshNode cf sf rc parentW ⟨i, p, r, s, vis, g, cs⟩ =
      intersectMeshNode cf sf rc parentW ⟨i, p, r, s, vis, g, cs'⟩ := rfl

/-- C10: `intersectObject(object, recursive := true)` tests only the
object itself and its direct children — every returned intersection
belongs to the object or a direct child, and pruning everything below
the direct children leaves the result unchanged, so deeper meshes never
contribute — and the returned array is sorted by ascending distance. -/
theorem raycaster_intersectObject_direct_children_only (cf sf : ℚ → ℚ)
    (rc : RaycasterM) (parentW : M4) (t : RCNode) :
    (∀ h ∈ intersectObjectM cf sf rc parentW t true,
      h.objectId = t.id ∨ h.objectId ∈ t.children.map RCNode.id) ∧
    intersectObjectM cf sf rc parentW (pruneDeep t) true =
      intersectObjectM cf sf rc parentW t true ∧
    (intersectObjectM cf sf rc parentW t true).Pairwise
      (fun a b => a.distance ≤ b.distance) := by
  obtain ⟨ti, tp, tr, ts, tv, tg, tcs⟩ := t
  refine ⟨?_, ?_, ?_⟩
  · intro h hmem
    unfold intersectObjectM at hmem
    rw [List.Perm.mem_iff (List.mergeSort_perm _ _)] at hmem
    simp only [if_true, List.mem_append, List.mem_flatMap] at hmem
    rcases hmem with hmem | ⟨c, hc, hmem⟩
    · exact Or.inl (intersectMeshNode_id cf sf rc parentW _ h hmem)
    · refine Or.inr ?_
      rw [intersectMeshNode_id cf sf rc _ c h hmem]
      exact List.mem_map_of_mem RCNode.id hc
  · have hfun : ∀ (w : M4) (c : RCNode),
        intersectMeshNode cf sf rc w
            ⟨c.id, c.position, c.rotation, c.scale, c.visible, c.geom, []⟩ =
          intersectMeshNode cf sf rc w c := by
      intro w c
      obtain ⟨ci, cp, cr, csc, cv, cg, ccs⟩ := c
      rfl
    unfold intersectObjectM pruneDeep
    simp only [if_true, List.flatMap_map, hfun]
    rw [intersectMeshNode_children_irrelevant cf sf rc parentW ti tp tr ts
      tv tg _ tcs]
  · unfold intersectObjectM
    have hs := @List.sorted_mergeSort Hit
      (fun a b : Hit => decide (a.distance ≤ b.distance))
      (fun a b c hab hbc => by
        simp only [decide_eq_true_eq] at hab hbc ⊢
        exact le_trans hab hbc)
      (fun a b => by
        simp only [Bool.or_eq_true, decide_eq_true_eq]
        exact le_total a.distance b.distance)
      (if true then
          intersectMeshNode cf sf rc parentW ⟨ti, tp, tr, ts, tv, tg, tcs⟩ ++
            tcs.flatMap (fun c =>
              intersectMeshNode cf sf rc
                (parentW.mul (computeLocalM cf sf tp tr ts)) c)
        else intersectMeshNode cf sf rc parentW ⟨ti, tp, tr, ts, tv, tg, tcs⟩)
    exact hs.imp (fun hab => by simpa using hab)

/-- Trig table for the concrete C10 scene (all rotations zero). -/
def c10cf : ℚ → ℚ := fun _ => 1

/-- Sine table for the concrete C10 scene. -/
def c10sf : ℚ → ℚ := fun _ => 0

/-- Raycaster for the C10 witness: ray from `(0,0,5)` towards
`(0,0,-1)`, default `near = 0`, `far = Infinity`. -/
def c10Ray : RaycasterM := ⟨⟨⟨0,0,5⟩, ⟨0,0,-1⟩⟩, 0, none⟩

/-- Triangle geometry shared by the C10 witness meshes. -/
def c10Geom : MeshData := ⟨[-1,-1,0, 1,-1,0, 0,1,0], [0,1,2], none⟩

/-- C10 witness hierarchy: a plain group (identity 1) holding a mesh
child (identity 2) that holds a mesh grandchild (identity 3). -/
def c10Root : RCNode :=
  ⟨1, ⟨0,0,0⟩, ⟨0,0,0⟩, ⟨1,1,1⟩, true, none,
    [⟨2, ⟨0,0,0⟩, ⟨0,0,0⟩, ⟨1,1,1⟩, true, some c10Geom,
      [⟨3, ⟨0,0,0⟩, ⟨0,0,0⟩, ⟨1,1,1⟩, true, some c10Geom, []⟩]⟩]⟩

theorem raycaster_intersectObject_direct_children_only_witness :
    (∀ h ∈ intersectObjectM c10cf c10sf c10Ray M4.id c10Root true,
      h.objectId = c10Root.id ∨
        h.objectId ∈ c10Root.children.map RCNode.id) ∧
    intersectObjectM c10cf c10sf c10Ray M4.id (pruneDeep c10Root) true =
      intersectObjectM c10cf c10sf c10Ray M4.id c10Root true ∧
    (intersectObjectM c10cf c10sf c10Ray M4.id c10Root true).Pairwise
      (fun a b => a.distance ≤ b.distance) :=
  raycaster_intersectObject_direct_children_only c10cf c10sf c10Ray M4.id
    c10Root

end WebReal3D
